import Mathlib

/-!
Verification of the interactive shell of `src/agents/simple_agent/main.py`
(langcrawl). The script keeps a conversation history (a Python list of
role/content dicts), reads input lines in a loop, recognises the exit
sentinel `quit`, appends the user message truncated to 175000 characters,
invokes a ReAct agent under a try/except, prints the result or the error,
and continues. We embed the shell as a step function on an explicit state,
with the printed output and the read input lines recorded as a trace of
events, and the agent as an oracle returning `Except` (Python: a return
value, or a raised exception caught by the `except` clause).
-/

namespace SimpleAgent

/-- Message roles, as the `role` field of the dicts in `main.py`. -/
inductive Role where
  | system
  | user
  | assistant
  | tool
deriving Repr, DecidableEq

/-- A conversation message: `{"role": ..., "content": ...}` in `main.py`. -/
structure Message where
  role : Role
  content : String
deriving Repr, DecidableEq

/-- A discovered tool, as far as the shell observes it (`tool.name` is all
`main.py` reads; line 102). -/
structure ToolDescriptor where
  name : String
  description : String
deriving Repr, DecidableEq

/-- Observable I/O events of the shell, in program order: the two startup
prints (lines 102-103), each `input()` call (line 107), and the per-turn
prints (lines 109, 122, 124). -/
inductive Event where
  | printTools (names : List String)
  | printSep
  | readInput (line : String)
  | printAgent (text : String)
  | printError (err : String)
  | printGoodbye
deriving Repr, DecidableEq

/-- Python string slicing `s[:n]`: the first `n` characters (code points),
or all of `s` when it is shorter. Embeds `user_input[:175000]` (line 113). -/
def strTake (n : Nat) (s : String) : String :=
  ⟨s.data.take n⟩

/-- The truncation cap applied to user input on line 113 of `main.py`. -/
def maxContentLen : Nat := 175000

/-- The system prompt `main.py` seeds the history with (lines 94-99). -/
def systemPrompt : String :=
  "You are a helpful assistant that can scrape websites, crawl pages, and extract data using Firecrawl tools. Think step by step and use the appropriate tools to help the user."

/-- The single system message the history starts with. -/
def systemMessage : Message :=
  { role := Role.system, content := systemPrompt }

/-- The user message appended for an input line (line 113 of `main.py`). -/
def userMessage (input : String) : Message :=
  { role := Role.user, content := strTake maxContentLen input }

/-- Shell state: the conversation history `messages`, the I/O trace, how
many times the agent has been invoked, whether the loop has exited, and the
process exit status when it has. -/
structure ShellState where
  messages : List Message
  outputs : List Event
  modelCalls : Nat
  done : Bool
  exitCode : Option Nat
deriving Repr, DecidableEq

/-- State after lines 94-103 of `main.py`: history seeded with the system
message, tool names printed, separator printed, loop not yet entered. -/
def initState (tools : List ToolDescriptor) : ShellState :=
  { messages := [systemMessage]
  , outputs := [Event.printTools (tools.map ToolDescriptor.name), Event.printSep]
  , modelCalls := 0
  , done := false
  , exitCode := none }

/-- One iteration of the `while True` loop (lines 106-124 of `main.py`),
with the agent (`agent.ainvoke` plus the extraction of
`agent_response["messages"][-1].content`) as an oracle: `Except.ok` is a
normal return, `Except.error` a raised exception caught on line 123.
On `quit` the loop breaks and `main` returns, so the process exits with
status 0. Note that on success the reply is printed (line 122) but NOT
appended to `messages`; only the user message was appended (line 113). -/
def stepShell (agent : List Message → Except String String)
    (st : ShellState) (input : String) : ShellState :=
  if st.done then st
  else if input = "quit" then
    { st with
        outputs := st.outputs ++ [Event.readInput input, Event.printGoodbye]
        done := true
        exitCode := some 0 }
  else
    match agent (st.messages ++ [userMessage input]) with
    | Except.ok s =>
        { st with
            messages := st.messages ++ [userMessage input]
            outputs := st.outputs ++ [Event.readInput input, Event.printAgent s]
            modelCalls := st.modelCalls + 1 }
    | Except.error e =>
        { st with
            messages := st.messages ++ [userMessage input]
            outputs := st.outputs ++ [Event.readInput input, Event.printError e]
            modelCalls := st.modelCalls + 1 }

/-- A whole session: startup followed by the loop consuming the given list
of input lines (the finite transcript of what the user types). -/
def runShell (agent : List Message → Except String String)
    (tools : List ToolDescriptor) (inputs : List String) : ShellState :=
  inputs.foldl (stepShell agent) (initState tools)

/-- Modelled from the spec: startup configuration. `main.py` reads the two
credentials with `os.getenv` (lines 39 and 48); `Option` captures an unset
environment variable. -/
structure Config where
  openaiKey : Option String
  firecrawlKey : Option String
deriving Repr, DecidableEq

/-- Modelled from the spec: the credential validation performed before the
interactive loop. The validating code itself lives in the external model
client and tool server libraries, not under `src/`; the spec states that
absence of either credential is a configuration error, reported at startup,
not mid-session. -/
def startupCheck (cfg : Config) : Except String Unit :=
  match cfg.openaiKey with
  | none => Except.error "missing language model API credential"
  | some _ =>
    match cfg.firecrawlKey with
    | none => Except.error "missing tool server credential"
    | some _ => Except.ok ()

/-- The whole program: startup credential validation, then the interactive
session. A startup error means the interactive loop is never entered and no
input is ever read. -/
def runProgram (cfg : Config) (agent : List Message → Except String String)
    (tools : List ToolDescriptor) (inputs : List String) :
    Except String ShellState :=
  match startupCheck cfg with
  | Except.error e => Except.error e
  | Except.ok _ => Except.ok (runShell agent tools inputs)

/-- A model response: either a final text completion or a batch of tool
call requests (name, arguments). -/
inductive ModelResponse where
  | text (s : String)
  | toolCalls (calls : List (String × String))
deriving Repr

/-- Look up a tool implementation by name in the discovered tool set. -/
def lookupTool (tools : List (String × (String → String))) (n : String) :
    Option (String → String) :=
  match tools with
  | [] => none
  | (name, f) :: rest => if name = n then some f else lookupTool rest n

/-- Execute a batch of requested tool calls in order, appending each result
as a `tool`-role message; an unknown tool name is an error. -/
def runCalls (tools : List (String × (String → String))) :
    List (String × String) → List Message → Except String (List Message)
  | [], conv => Except.ok conv
  | (name, args) :: rest, conv =>
    match lookupTool tools name with
    | none => Except.error ("unknown tool " ++ name)
    | some f => runCalls tools rest (conv ++ [⟨Role.tool, f args⟩])

/-- Modelled from the spec: the Reasoning Loop (section 4.2). The actual
loop is inside the external `create_react_agent` library, not under `src/`;
the spec requires it to query the model, run requested tool calls, repeat,
and — as a safety bound — fail with a reported error when the maximum number
of tool-call rounds is exceeded, never truncate silently. -/
def reasoningLoop (llm : List Message → ModelResponse)
    (tools : List (String × (String → String))) :
    Nat → List Message → Except String String
  | 0, _ => Except.error "round limit exceeded"
  | n + 1, conv =>
    match llm conv with
    | ModelResponse.text s => Except.ok s
    | ModelResponse.toolCalls calls =>
      match runCalls tools calls conv with
      | Except.error e => Except.error e
      | Except.ok conv2 => reasoningLoop llm tools n conv2

/-- Modelled from the spec: the safety bound on tool-call rounds (the
external library enforces a default recursion limit). -/
def maxRounds : Nat := 25

/-- A model that requests a tool call on every round; with it the reasoning
loop necessarily exhausts its round budget. -/
def alwaysToolLLM : List Message → ModelResponse :=
  fun _ => ModelResponse.toolCalls [("t", "arg")]

/-- A concrete agent oracle that always succeeds with a fixed reply. -/
def okAgent : List Message → Except String String :=
  fun _ => Except.ok "Hello"

/-! ## Helper lemmas -/

/-- One shell step only ever appends to the output trace. -/
theorem stepShell_outputs_extend (agent : List Message → Except String String)
    (st : ShellState) (input : String) :
    ∃ d, (stepShell agent st input).outputs = st.outputs ++ d := by
  unfold stepShell
  by_cases hd : st.done = true
  · exact ⟨[], by simp [hd]⟩
  · simp only [hd, Bool.false_eq_true, if_false]
    by_cases hq : input = "quit"
    · exact ⟨[Event.readInput input, Event.printGoodbye], by simp [hq]⟩
    · simp only [hq, if_false]
      cases agent (st.messages ++ [userMessage input]) <;> exact ⟨_, rfl⟩

/-- One shell step only ever appends to the conversation history. -/
theorem stepShell_messages_extend (agent : List Message → Except String String)
    (st : ShellState) (input : String) :
    ∃ d, (stepShell agent st input).messages = st.messages ++ d := by
  unfold stepShell
  by_cases hd : st.done = true
  · exact ⟨[], by simp [hd]⟩
  · simp only [hd, Bool.false_eq_true, if_false]
    by_cases hq : input = "quit"
    · exact ⟨[], by simp [hq]⟩
    · simp only [hq, if_false]
      cases agent (st.messages ++ [userMessage input]) <;> exact ⟨_, rfl⟩

/-- Folding the shell step over any list of inputs only appends to the
output trace. -/
theorem foldl_outputs_extend (agent : List Message → Except String String) :
    ∀ (inputs : List String) (st : ShellState),
      ∃ d, (inputs.foldl (stepShell agent) st).outputs = st.outputs ++ d := by
  intro inputs
  induction inputs with
  | nil => intro st; exact ⟨[], by simp⟩
  | cons i rest ih =>
    intro st
    obtain ⟨d1, h1⟩ := stepShell_outputs_extend agent st i
    obtain ⟨d2, h2⟩ := ih (stepShell agent st i)
    exact ⟨d1 ++ d2, by rw [List.foldl_cons, h2, h1, List.append_assoc]⟩

/-- Folding the shell step over any list of inputs only appends to the
conversation history. -/
theorem foldl_messages_extend (agent : List Message → Except String String) :
    ∀ (inputs : List String) (st : ShellState),
      ∃ d, (inputs.foldl (stepShell agent) st).messages = st.messages ++ d := by
  intro inputs
  induction inputs with
  | nil => intro st; exact ⟨[], by simp⟩
  | cons i rest ih =>
    intro st
    obtain ⟨d1, h1⟩ := stepShell_messages_extend agent st i
    obtain ⟨d2, h2⟩ := ih (stepShell agent st i)
    exact ⟨d1 ++ d2, by rw [List.foldl_cons, h2, h1, List.append_assoc]⟩

/-- Length of the Python slice `s[:n]`. -/
theorem strTake_length (n : Nat) (s : String) :
    (strTake n s).length = min n s.length := by
  cases s with
  | mk data => simp [strTake, String.length, List.length_take]

/-- The Python slice `s[:n]` is the identity when `s` is within the cap. -/
theorem strTake_of_le (n : Nat) (s : String) (h : s.length ≤ n) :
    strTake n s = s := by
  cases s with
  | mk data =>
    simp only [String.length] at h
    exact congrArg String.mk (List.take_of_length_le h)

/-- A concrete agent oracle that always fails with a fixed error. -/
def errAgent : List Message → Except String String :=
  fun _ => Except.error "boom"

/-- Unfolding of a shell step on the exact sentinel `quit`. -/
theorem stepShell_quit (agent : List Message → Except String String)
    (st : ShellState) (hd : st.done = false) :
    stepShell agent st "quit" =
      { st with
          outputs := st.outputs ++ [Event.readInput "quit", Event.printGoodbye]
          done := true
          exitCode := some 0 } := by
  simp [stepShell, hd]

/-- Unfolding of a shell step on a non-quit input when the agent returns
normally. -/
theorem stepShell_ok (agent : List Message → Except String String)
    (st : ShellState) (input : String) (s : String)
    (hd : st.done = false) (hq : input ≠ "quit")
    (ha : agent (st.messages ++ [userMessage input]) = Except.ok s) :
    stepShell agent st input =
      { st with
          messages := st.messages ++ [userMessage input]
          outputs := st.outputs ++ [Event.readInput input, Event.printAgent s]
          modelCalls := st.modelCalls + 1 } := by
  simp [stepShell, hd, hq, ha]

/-- Unfolding of a shell step on a non-quit input when the agent raises. -/
theorem stepShell_err (agent : List Message → Except String String)
    (st : ShellState) (input : String) (e : String)
    (hd : st.done = false) (hq : input ≠ "quit")
    (ha : agent (st.messages ++ [userMessage input]) = Except.error e) :
    stepShell agent st input =
      { st with
          messages := st.messages ++ [userMessage input]
          outputs := st.outputs ++ [Event.readInput input, Event.printError e]
          modelCalls := st.modelCalls + 1 } := by
  simp [stepShell, hd, hq, ha]

/-! ## Claims -/

set_option maxRecDepth 8000

/-- Claim C1, counterexample: the claim that a successful turn appends the
final result to the history as an assistant-role message is false on the
code. At the concrete input "hi" with an agent that succeeds with "Hello",
the post-turn history is exactly system message plus user message, and its
assistant-role entries are empty: lines 121-122 of `main.py` print the
reply but never append it to `messages`. -/
theorem success_turn_no_assistant_cex :
    okAgent ((initState []).messages ++ [userMessage "hi"]) = Except.ok "Hello" ∧
    (stepShell okAgent (initState []) "hi").messages
      = [systemMessage, { role := Role.user, content := "hi" }] ∧
    List.filter (fun m => m.role == Role.assistant)
      (stepShell okAgent (initState []) "hi").messages = [] := by
  refine ⟨rfl, by decide, by decide⟩

/-- Claim C1, amended: for every turn in which the agent returns
successfully, the shell prints the result but does not append it to the
history: the post-turn history equals the pre-turn history plus exactly the
one user message (no assistant-role message), and the shell returns to
awaiting input. -/
theorem success_turn_prints_without_append
    (agent : List Message → Except String String)
    (st : ShellState) (input : String) (s : String)
    (hd : st.done = false) (hq : input ≠ "quit")
    (ha : agent (st.messages ++ [userMessage input]) = Except.ok s) :
    (stepShell agent st input).messages = st.messages ++ [userMessage input] ∧
    (stepShell agent st input).outputs
      = st.outputs ++ [Event.readInput input, Event.printAgent s] ∧
    (stepShell agent st input).done = false := by
  rw [stepShell_ok agent st input s hd hq ha]
  exact ⟨rfl, rfl, hd⟩

/-- Witness for C1 amended at a concrete successful turn. -/
theorem success_turn_prints_without_append_witness :
    (stepShell okAgent (initState []) "hi").messages
      = (initState []).messages ++ [userMessage "hi"] ∧
    (stepShell okAgent (initState []) "hi").outputs
      = (initState []).outputs ++ [Event.readInput "hi", Event.printAgent "Hello"] ∧
    (stepShell okAgent (initState []) "hi").done = false :=
  success_turn_prints_without_append okAgent (initState []) "hi" "Hello"
    rfl (by decide) rfl

/-- Claim C2: for every turn in which the agent reports an error, the
history length after the turn equals the length before plus exactly one
(the user message is retained, nothing is rolled back, no assistant message
is appended), and the shell returns to accepting input. -/
theorem error_turn_history_plus_one
    (agent : List Message → Except String String)
    (st : ShellState) (input : String) (e : String)
    (hd : st.done = false) (hq : input ≠ "quit")
    (ha : agent (st.messages ++ [userMessage input]) = Except.error e) :
    (stepShell agent st input).messages.length = st.messages.length + 1 ∧
    (stepShell agent st input).messages = st.messages ++ [userMessage input] ∧
    (stepShell agent st input).outputs
      = st.outputs ++ [Event.readInput input, Event.printError e] ∧
    (stepShell agent st input).done = false := by
  rw [stepShell_err agent st input e hd hq ha]
  exact ⟨by simp, rfl, rfl, hd⟩

/-- Witness for C2 at a concrete failing turn. -/
theorem error_turn_history_plus_one_witness :
    (stepShell errAgent (initState []) "hi").messages.length
      = (initState []).messages.length + 1 ∧
    (stepShell errAgent (initState []) "hi").messages
      = (initState []).messages ++ [userMessage "hi"] ∧
    (stepShell errAgent (initState []) "hi").outputs
      = (initState []).outputs ++ [Event.readInput "hi", Event.printError "boom"] ∧
    (stepShell errAgent (initState []) "hi").done = false :=
  error_turn_history_plus_one errAgent (initState []) "hi" "boom"
    rfl (by decide) rfl

/-- Claim C3: every submitted non-quit input appends exactly one user-role
message whose content is the input truncated at the cap: unchanged when
within the cap, of length exactly the cap when longer. -/
theorem user_turn_appends_one_truncated
    (agent : List Message → Except String String)
    (st : ShellState) (input : String)
    (hd : st.done = false) (hq : input ≠ "quit") :
    (stepShell agent st input).messages
      = st.messages ++ [{ role := Role.user, content := strTake maxContentLen input }] ∧
    (input.length ≤ maxContentLen → strTake maxContentLen input = input) ∧
    (maxContentLen < input.length →
      (strTake maxContentLen input).length = maxContentLen) := by
  refine ⟨?_, fun h => strTake_of_le _ _ h, fun h => ?_⟩
  · cases ha : agent (st.messages ++ [userMessage input]) with
    | ok s => rw [stepShell_ok agent st input s hd hq ha]; rfl
    | error e => rw [stepShell_err agent st input e hd hq ha]; rfl
  · rw [strTake_length]
    exact Nat.min_eq_left (Nat.le_of_lt h)

/-- Witness for C3 at a concrete short input. -/
theorem user_turn_appends_one_truncated_witness :
    (stepShell okAgent (initState []) "hello").messages
      = (initState []).messages
          ++ [{ role := Role.user, content := strTake maxContentLen "hello" }] ∧
    ("hello".length ≤ maxContentLen → strTake maxContentLen "hello" = "hello") ∧
    (maxContentLen < "hello".length →
      (strTake maxContentLen "hello").length = maxContentLen) :=
  user_turn_appends_one_truncated okAgent (initState []) "hello" rfl (by decide)

/-- Claim C4: the exit sentinel is an exact, case-sensitive match on the
literal `quit`; every other input line is treated as ordinary conversation:
it is appended to the history as a user message and the shell keeps
running rather than terminating. -/
theorem quit_sentinel_exact_match_only
    (agent : List Message → Except String String)
    (st : ShellState) (input : String)
    (hd : st.done = false) (hq : input ≠ "quit") :
    (stepShell agent st input).done = false ∧
    (stepShell agent st input).messages = st.messages ++ [userMessage input] ∧
    (stepShell agent st input).exitCode = st.exitCode := by
  cases ha : agent (st.messages ++ [userMessage input]) with
  | ok s => rw [stepShell_ok agent st input s hd hq ha]; exact ⟨hd, rfl, rfl⟩
  | error e => rw [stepShell_err agent st input e hd hq ha]; exact ⟨hd, rfl, rfl⟩

/-- Witness for C4 at the three near-sentinel inputs the spec names:
`Quit`, `quit ` with a trailing space, and `quitting`. -/
theorem quit_sentinel_exact_match_only_witness :
    ((stepShell okAgent (initState []) "Quit").done = false ∧
      (stepShell okAgent (initState []) "Quit").messages
        = (initState []).messages ++ [userMessage "Quit"] ∧
      (stepShell okAgent (initState []) "Quit").exitCode
        = (initState []).exitCode) ∧
    ((stepShell okAgent (initState []) "quit ").done = false ∧
      (stepShell okAgent (initState []) "quit ").messages
        = (initState []).messages ++ [userMessage "quit "] ∧
      (stepShell okAgent (initState []) "quit ").exitCode
        = (initState []).exitCode) ∧
    ((stepShell okAgent (initState []) "quitting").done = false ∧
      (stepShell okAgent (initState []) "quitting").messages
        = (initState []).messages ++ [userMessage "quitting"] ∧
      (stepShell okAgent (initState []) "quitting").exitCode
        = (initState []).exitCode) :=
  ⟨quit_sentinel_exact_match_only okAgent (initState []) "Quit" rfl (by decide),
   quit_sentinel_exact_match_only okAgent (initState []) "quit " rfl (by decide),
   quit_sentinel_exact_match_only okAgent (initState []) "quitting" rfl (by decide)⟩

/-- Claim C5: on the input `quit` the shell prints the farewell and
terminates with exit status 0, invokes the agent zero times for that turn
(hence zero model calls and zero tool calls, tools being reachable only
through an agent invocation), and appends nothing to the history. -/
theorem quit_exits_status_zero
    (agent : List Message → Except String String)
    (st : ShellState) (hd : st.done = false) :
    (stepShell agent st "quit").done = true ∧
    (stepShell agent st "quit").exitCode = some 0 ∧
    (stepShell agent st "quit").outputs
      = st.outputs ++ [Event.readInput "quit", Event.printGoodbye] ∧
    (stepShell agent st "quit").messages = st.messages ∧
    (stepShell agent st "quit").modelCalls = st.modelCalls := by
  rw [stepShell_quit agent st hd]
  exact ⟨rfl, rfl, rfl, rfl, rfl⟩

/-- Witness for C5 at a concrete session start. -/
theorem quit_exits_status_zero_witness :
    (stepShell okAgent (initState []) "quit").done = true ∧
    (stepShell okAgent (initState []) "quit").exitCode = some 0 ∧
    (stepShell okAgent (initState []) "quit").outputs
      = (initState []).outputs ++ [Event.readInput "quit", Event.printGoodbye] ∧
    (stepShell okAgent (initState []) "quit").messages
      = (initState []).messages ∧
    (stepShell okAgent (initState []) "quit").modelCalls
      = (initState []).modelCalls :=
  quit_exits_status_zero okAgent (initState []) rfl

/-- Claim C10: the empty input line is not the exit sentinel: it is
appended as a user-role message with empty content, the agent is invoked on
it like any other turn, and the shell keeps running. -/
theorem empty_input_is_ordinary_turn
    (agent : List Message → Except String String)
    (st : ShellState) (hd : st.done = false) :
    (stepShell agent st "").done = false ∧
    (stepShell agent st "").messages
      = st.messages ++ [{ role := Role.user, content := "" }] ∧
    (stepShell agent st "").modelCalls = st.modelCalls + 1 ∧
    (stepShell agent st "").exitCode = st.exitCode := by
  have hq : ("" : String) ≠ "quit" := by decide
  cases ha : agent (st.messages ++ [userMessage ""]) with
  | ok s => rw [stepShell_ok agent st "" s hd hq ha]; exact ⟨hd, rfl, rfl, rfl⟩
  | error e => rw [stepShell_err agent st "" e hd hq ha]; exact ⟨hd, rfl, rfl, rfl⟩

/-- Witness for C10 at a concrete session start. -/
theorem empty_input_is_ordinary_turn_witness :
    (stepShell okAgent (initState []) "").done = false ∧
    (stepShell okAgent (initState []) "").messages
      = (initState []).messages ++ [{ role := Role.user, content := "" }] ∧
    (stepShell okAgent (initState []) "").modelCalls
      = (initState []).modelCalls + 1 ∧
    (stepShell okAgent (initState []) "").exitCode = (initState []).exitCode :=
  empty_input_is_ordinary_turn okAgent (initState []) rfl

/-- With a model that requests a tool call on every round, the reasoning
loop exhausts any round budget and reports the round-limit error. -/
theorem alwaysTool_exhausts (f : String → String) :
    ∀ (n : Nat) (hist : List Message),
      reasoningLoop alwaysToolLLM [("t", f)] n hist
        = Except.error "round limit exceeded" := by
  intro n
  induction n with
  | zero => intro hist; rfl
  | succ k ih =>
    intro hist
    have hrc : runCalls [("t", f)] [("t", "arg")] hist
        = Except.ok (hist ++ [⟨Role.tool, f "arg"⟩]) := by
      simp [runCalls, lookupTool]
    show (match alwaysToolLLM hist with
      | ModelResponse.text s => Except.ok s
      | ModelResponse.toolCalls calls =>
        match runCalls [("t", f)] calls hist with
        | Except.error e => Except.error e
        | Except.ok conv2 =>
            reasoningLoop alwaysToolLLM [("t", f)] k conv2)
      = Except.error "round limit exceeded"
    show (match runCalls [("t", f)] [("t", "arg")] hist with
      | Except.error e => Except.error e
      | Except.ok conv2 => reasoningLoop alwaysToolLLM [("t", f)] k conv2)
      = Except.error "round limit exceeded"
    rw [hrc]
    exact ih _

/-- Claim C6: exhausting the maximum number of tool-call rounds surfaces as
a reported failure for the turn — the reasoning loop returns an error value,
never a silent success — and the interactive shell prints that error and
keeps running. -/
theorem round_limit_is_reported_failure (f : String → String) (n : Nat)
    (hist : List Message) (st : ShellState) (input : String)
    (hd : st.done = false) (hq : input ≠ "quit") :
    reasoningLoop alwaysToolLLM [("t", f)] n hist
      = Except.error "round limit exceeded" ∧
    (stepShell (reasoningLoop alwaysToolLLM [("t", f)] maxRounds) st input).done
      = false ∧
    (stepShell (reasoningLoop alwaysToolLLM [("t", f)] maxRounds) st input).outputs
      = st.outputs
          ++ [Event.readInput input, Event.printError "round limit exceeded"] := by
  have ha := alwaysTool_exhausts f maxRounds (st.messages ++ [userMessage input])
  rw [stepShell_err _ st input _ hd hq ha]
  exact ⟨alwaysTool_exhausts f n hist, hd, rfl⟩

/-- Witness for C6 at a concrete round budget and turn. -/
theorem round_limit_is_reported_failure_witness :
    reasoningLoop alwaysToolLLM [("t", id)] 3 []
      = Except.error "round limit exceeded" ∧
    (stepShell (reasoningLoop alwaysToolLLM [("t", id)] maxRounds)
        (initState []) "hello").done = false ∧
    (stepShell (reasoningLoop alwaysToolLLM [("t", id)] maxRounds)
        (initState []) "hello").outputs
      = (initState []).outputs
          ++ [Event.readInput "hello", Event.printError "round limit exceeded"] :=
  round_limit_is_reported_failure id 3 [] (initState []) "hello" rfl (by decide)

/-- Claim C7: a missing credential (for the language model API or for the
tool server) is a configuration error at startup: the program reports it
and exits before the interactive loop runs, so the absence is never first
detected mid-session. -/
theorem missing_credential_fatal_at_startup (cfg : Config)
    (agent : List Message → Except String String)
    (tools : List ToolDescriptor) (inputs : List String)
    (h : cfg.openaiKey = none ∨ cfg.firecrawlKey = none) :
    ∃ e, runProgram cfg agent tools inputs = Except.error e := by
  cases ho : cfg.openaiKey with
  | none =>
    exact ⟨"missing language model API credential",
      by simp [runProgram, startupCheck, ho]⟩
  | some k =>
    cases h with
    | inl h1 => rw [ho] at h1; exact absurd h1 (by simp)
    | inr h2 =>
      exact ⟨"missing tool server credential",
        by simp [runProgram, startupCheck, ho, h2]⟩

/-- Witness for C7 at a concrete configuration missing the model key. -/
theorem missing_credential_fatal_at_startup_witness :
    ∃ e, runProgram { openaiKey := none, firecrawlKey := some "k" }
        okAgent [] [] = Except.error e :=
  missing_credential_fatal_at_startup
    { openaiKey := none, firecrawlKey := some "k" } okAgent [] [] (Or.inl rfl)

/-- Claim C8: after tool discovery, the shell prints the discovered tool
names before reading any line of user input: in the trace of every run the
very first event is the tool-name print, and every input-read event occurs
strictly later. -/
theorem tools_printed_before_first_input
    (agent : List Message → Except String String)
    (tools : List ToolDescriptor) (inputs : List String) (i : Nat) (s : String)
    (h : (runShell agent tools inputs).outputs[i]? = some (Event.readInput s)) :
    (runShell agent tools inputs).outputs[0]?
      = some (Event.printTools (tools.map ToolDescriptor.name)) ∧ 0 < i := by
  obtain ⟨d, hfold⟩ := foldl_outputs_extend agent inputs (initState tools)
  have hout : (runShell agent tools inputs).outputs
      = Event.printTools (tools.map ToolDescriptor.name)
          :: Event.printSep :: d := by
    rw [runShell, hfold]; rfl
  constructor
  · rw [hout]; rfl
  · rcases Nat.eq_zero_or_pos i with h0 | h0
    · subst h0
      rw [hout] at h
      simp at h
    · exact h0

/-- Witness for C8 on a concrete session whose trace reads one line. -/
theorem tools_printed_before_first_input_witness :
    (runShell okAgent
        [{ name := "scrape", description := "" },
         { name := "crawl", description := "" }] ["quit"]).outputs[0]?
      = some (Event.printTools
          ([{ name := "scrape", description := "" },
            { name := "crawl", description := "" }].map ToolDescriptor.name)) ∧
    0 < 2 :=
  tools_printed_before_first_input okAgent
    [{ name := "scrape", description := "" },
     { name := "crawl", description := "" }] ["quit"] 2 "quit" (by decide)

/-- Claim C9: the history starts as exactly the one system message before
any input is read, every shell step only appends to the history (existing
entries are never modified or removed), and across any whole run the system
message remains the first element. -/
theorem history_append_only_invariant
    (agent : List Message → Except String String)
    (tools : List ToolDescriptor) (inputs : List String)
    (st : ShellState) (input : String) :
    (initState tools).messages = [systemMessage] ∧
    (∃ d, (stepShell agent st input).messages = st.messages ++ d) ∧
    (runShell agent tools inputs).messages.head? = some systemMessage := by
  refine ⟨rfl, stepShell_messages_extend agent st input, ?_⟩
  obtain ⟨d, hfold⟩ := foldl_messages_extend agent inputs (initState tools)
  rw [runShell, hfold]
  rfl

end SimpleAgent
